import Mathlib

/-!
Shallow embedding of `openhands/tools/browser_use/cdp_har_recorder.py`
(class `CdpHarRecorder`): the event-driven network-traffic correlator that
consumes CDP Network events and produces HAR entries.

Python dicts that the code iterates or mutates in place
(`_pending_requests`, `_pending_extra_info`, header dicts, the `timing`
payload) are modelled as insertion-ordered association lists
`List (String × α)`: assigning to an existing key replaces the value in
place (keeping the key's position, as CPython dicts do), assigning a fresh
key appends, `pop` removes the key, and `values()` iterates in insertion
order. Event payloads are structures of `Option` fields mirroring
`event.get(...)` access; Python truthiness checks (`if not request_id`,
`if wall_time`, `if post_data`, `if timing`, `if extra_headers`) are
translated explicitly, including that the empty string, the number 0 and
the empty dict are falsy. Wall-clock fallback `datetime.now()` is passed
in as an explicit `now` argument. CDP calls, logging and file writes are
external effects with no influence on the correlator state; the
try/except wrapper around each handler body is modelled by the handlers
being total functions.
-/

namespace CdpHar

/-- First value stored under key `k`, like Python `d.get(k)` (keys are
unique in every list we build, so first match is the match). -/
def dfind {α : Type} (m : List (String × α)) (k : String) : Option α :=
  match m with
  | [] => none
  | (k2, v) :: rest => if k2 = k then some v else dfind rest k

/-- Python `d.get(k, dflt)`. -/
def dfindD {α : Type} (m : List (String × α)) (k : String) (dflt : α) : α :=
  (dfind m k).getD dflt

/-- Python `d[k] = v` on an insertion-ordered dict: replace in place if the
key exists, else append at the end. -/
def dinsert {α : Type} (m : List (String × α)) (k : String) (v : α) :
    List (String × α) :=
  match m with
  | [] => [(k, v)]
  | (k2, v2) :: rest =>
      if k2 = k then (k, v) :: rest else (k2, v2) :: dinsert rest k v

/-- Python `d.pop(k)` (the removal part): drop the pair keyed `k`. -/
def derase {α : Type} (m : List (String × α)) (k : String) :
    List (String × α) :=
  m.filter (fun p => decide (p.1 ≠ k))

/-- One name/value pair of the HAR header list format. -/
structure Header where
  name : String
  value : String
  deriving DecidableEq, Repr

/-- `entry["request"]["postData"]` as built at line 184. -/
structure PostData where
  mimeType : String
  text : String
  deriving DecidableEq, Repr

/-- `entry["response"]["content"]`: `text` is `none` while the dict has no
`"text"` key and `some t` once `_on_loading_finished` adds one. -/
structure Content where
  size : Int
  mimeType : String
  text : Option String
  deriving DecidableEq, Repr

/-- `entry["request"]` of a HAR entry. -/
structure HarRequest where
  method : String
  url : String
  httpVersion : String
  headers : List Header
  headersSize : Int
  bodySize : Int
  postData : Option PostData
  deriving DecidableEq, Repr

/-- `entry["response"]` of a HAR entry. -/
structure HarResponse where
  status : Int
  statusText : String
  httpVersion : String
  headers : List Header
  content : Content
  redirectURL : String
  headersSize : Int
  bodySize : Int
  deriving DecidableEq, Repr

/-- `entry["timings"]` of a HAR entry. -/
structure Timings where
  send : Int
  wait : Int
  receive : Int
  deriving DecidableEq, Repr

/-- One HAR entry as the recorder builds it (`startedDateTime` is kept as
the numeric wall time it is rendered from). -/
structure Entry where
  startedWallTime : Int
  time : Int
  request : HarRequest
  response : HarResponse
  timings : Timings
  requestId : String
  deriving DecidableEq, Repr

/-- `event["request"]` payload of `Network.requestWillBeSent`; every field
is read with `.get`, so every field is optional. -/
structure RequestData where
  method : Option String := none
  url : Option String := none
  headers : Option (List (String × String)) := none
  postData : Option String := none
  deriving DecidableEq, Repr

/-- `Network.requestWillBeSent` event payload. `redirectResponse` is part
of the protocol payload but the handler never reads it. -/
structure RequestWillBeSentEvent where
  requestId : Option String := none
  request : Option RequestData := none
  wallTime : Option Int := none
  redirectResponse : Option (List (String × Int)) := none
  deriving DecidableEq, Repr

/-- `Network.requestWillBeSentExtraInfo` event payload. -/
structure ExtraInfoEvent where
  requestId : Option String := none
  headers : Option (List (String × String)) := none
  deriving DecidableEq, Repr

/-- `event["response"]` payload of `Network.responseReceived`; `timing` is
a dict of numeric fields, read with `.get` and tested for truthiness. -/
structure ResponseData where
  status : Option Int := none
  statusText : Option String := none
  headers : Option (List (String × String)) := none
  mimeType : Option String := none
  timing : Option (List (String × Int)) := none
  deriving DecidableEq, Repr

/-- `Network.responseReceived` event payload. -/
structure ResponseReceivedEvent where
  requestId : Option String := none
  response : Option ResponseData := none
  deriving DecidableEq, Repr

/-- `Network.loadingFinished` event payload. -/
structure LoadingFinishedEvent where
  requestId : Option String := none
  encodedDataLength : Option Int := none
  deriving DecidableEq, Repr

/-- `event["targetInfo"]` payload of `Target.attachedToTarget`. -/
structure TargetInfo where
  type : Option String := none
  deriving DecidableEq, Repr

/-- `Network.loadingFailed` event payload. -/
structure LoadingFailedEvent where
  requestId : Option String := none
  errorText : Option String := none
  deriving DecidableEq, Repr

/-- `Target.attachedToTarget` event payload. -/
structure TargetAttachedEvent where
  sessionId : Option String := none
  targetInfo : Option TargetInfo := none
  deriving DecidableEq, Repr

/-- The mutable state of one `CdpHarRecorder` instance: `_started`,
`_entries`, `_pending_requests`, `_pending_extra_info`,
`_enabled_sessions`, and the configured `har_path`. -/
structure RecorderState where
  harPath : String
  started : Bool
  entries : List Entry
  pending : List (String × Entry)
  extraInfoCache : List (String × List (String × String))
  enabledSessions : List String
  deriving DecidableEq, Repr

/-- `_format_headers`: dict to HAR name/value list (line 346). -/
def formatHeaders (headers : List (String × String)) : List Header :=
  headers.map (fun p => { name := p.1, value := p.2 })

/-- The header-merge loop shared by lines 197-202 and 241-247: the set of
existing names is computed once, then each extra pair whose name is not
among them is appended. -/
def mergeHeaderList (hs : List Header) (extra : List (String × String)) :
    List Header :=
  hs ++ (extra.filter
          (fun p => decide (p.1 ∉ hs.map Header.name))).map
        (fun p => { name := p.1, value := p.2 })

/-- Merge extra headers into a pending entry's request header list. -/
def mergeEntryHeaders (entry : Entry) (extra : List (String × String)) :
    Entry :=
  { entry with request :=
      { entry.request with
          headers := mergeHeaderList entry.request.headers extra } }

/-- The fresh HAR entry built at lines 137-187: every missing payload field
is defaulted exactly as the `.get` defaults do, `wallTime` of 0 is falsy
so the capture-time fallback `now` is used, and a truthy `postData` string
attaches a body descriptor whose mime type is looked up in the raw request
headers dict. -/
def buildEntry (rid : String) (request : RequestData) (wallTime : Option Int)
    (now : Int) : Entry :=
  let startedWallTime :=
    match wallTime with
    | some w => if w = 0 then now else w
    | none => now
  let rawHeaders := request.headers.getD []
  { startedWallTime := startedWallTime
    time := 0
    request :=
      { method := request.method.getD "GET"
        url := request.url.getD ""
        httpVersion := "HTTP/1.1"
        headers := formatHeaders rawHeaders
        headersSize := -1
        bodySize := -1
        postData :=
          match request.postData with
          | some pd =>
              if pd = "" then none
              else some { mimeType := dfindD rawHeaders "Content-Type"
                            "application/x-www-form-urlencoded"
                          text := pd }
          | none => none }
    response :=
      { status := 0
        statusText := ""
        httpVersion := "HTTP/1.1"
        headers := []
        content := { size := 0, mimeType := "", text := none }
        redirectURL := ""
        headersSize := -1
        bodySize := -1 }
    timings := { send := 0, wait := 0, receive := 0 }
    requestId := rid }

/-- `_on_request_will_be_sent` (lines 128-214): build a fresh entry, store
it under its request id (silently replacing any pending entry for the same
id), then consume and merge any cached extra-info headers. -/
def onRequestWillBeSent (s : RecorderState) (e : RequestWillBeSentEvent)
    (now : Int) : RecorderState :=
  match e.requestId with
  | none => s
  | some rid =>
    if rid = "" then s
    else
      let entry := buildEntry rid (e.request.getD {}) e.wallTime now
      match dfind s.extraInfoCache rid with
      | some cachedHeaders =>
          let entry2 :=
            if cachedHeaders = [] then entry
            else mergeEntryHeaders entry cachedHeaders
          { s with pending := dinsert s.pending rid entry2
                   extraInfoCache := derase s.extraInfoCache rid }
      | none => { s with pending := dinsert s.pending rid entry }

/-- `_on_request_will_be_sent_extra_info` (lines 216-255): merge into the
pending entry if it exists, otherwise cache the headers (overwriting any
prior cached record for the same id). -/
def onRequestWillBeSentExtraInfo (s : RecorderState) (e : ExtraInfoEvent) :
    RecorderState :=
  match e.requestId with
  | none => s
  | some rid =>
    if rid = "" then s
    else
      let extraHeaders := e.headers.getD []
      match dfind s.pending rid with
      | some entry =>
          if extraHeaders = [] then s
          else { s with pending :=
                  dinsert s.pending rid (mergeEntryHeaders entry extraHeaders) }
      | none =>
          { s with extraInfoCache := dinsert s.extraInfoCache rid extraHeaders }

/-- The response-received mutation of a pending entry (lines 269-278): fill
status/statusText/headers/mimeType from the response payload (defaulting
missing fields), and when the timing dict is truthy (present and
non-empty) set `wait` to `receiveHeadersEnd − sendEnd` with each side
defaulting to 0. -/
def respUpdateEntry (entry : Entry) (response : ResponseData) : Entry :=
  { entry with
      response :=
        { entry.response with
            status := response.status.getD 0
            statusText := response.statusText.getD ""
            headers := formatHeaders (response.headers.getD [])
            content := { entry.response.content with
                           mimeType := response.mimeType.getD "" } }
      timings :=
        match response.timing with
        | some t =>
            if t = [] then entry.timings
            else { entry.timings with
                     wait := dfindD t "receiveHeadersEnd" 0 -
                             dfindD t "sendEnd" 0 }
        | none => entry.timings }

/-- The loading-finished mutation of a popped entry (lines 299-305): stamp
`content.size` and `bodySize` with the encoded length and add the
`content.text` placeholder `""`. -/
def finishUpdateEntry (entry : Entry) (len : Int) : Entry :=
  { entry with
      response :=
        { entry.response with
            bodySize := len
            content := { entry.response.content with
                           size := len
                           text := some "" } } }

/-- The loading-failed mutation of a popped entry (lines 332-334): status 0
and the given status text; `content` is untouched. -/
def failUpdateEntry (entry : Entry) (statusText : String) : Entry :=
  { entry with
      response :=
        { entry.response with
            status := 0
            statusText := statusText } }

/-- `_on_response_received` (lines 257-286): no-op for an unknown id, else
update the pending entry in place. -/
def onResponseReceived (s : RecorderState) (e : ResponseReceivedEvent) :
    RecorderState :=
  match e.requestId with
  | none => s
  | some rid =>
    if rid = "" then s
    else
      match dfind s.pending rid with
      | none => s
      | some entry =>
          { s with pending :=
              dinsert s.pending rid (respUpdateEntry entry (e.response.getD {})) }

/-- `_on_loading_finished` (lines 288-319): no-op for an unknown id, else
pop the entry, stamp `content.size`/`bodySize` with `encodedDataLength`
(default 0), add the `content.text` placeholder `""`, and append it to the
output entries. -/
def onLoadingFinished (s : RecorderState) (e : LoadingFinishedEvent) :
    RecorderState :=
  match e.requestId with
  | none => s
  | some rid =>
    if rid = "" then s
    else
      match dfind s.pending rid with
      | none => s
      | some entry =>
          { s with pending := derase s.pending rid
                   entries := s.entries ++
                     [finishUpdateEntry entry (e.encodedDataLength.getD 0)] }

/-- `_on_loading_failed` (lines 321-344): no-op for an unknown id, else pop
the entry, set status 0 and `statusText := errorText` (default `"Failed"`
when the key is absent), and append it to the output entries. -/
def onLoadingFailed (s : RecorderState) (e : LoadingFailedEvent) :
    RecorderState :=
  match e.requestId with
  | none => s
  | some rid =>
    if rid = "" then s
    else
      match dfind s.pending rid with
      | none => s
      | some entry =>
          { s with pending := derase s.pending rid
                   entries := s.entries ++
                     [failUpdateEntry entry (e.errorText.getD "Failed")] }

/-- `_on_target_attached` (lines 102-117): record a page target's unseen,
truthy session id; the actual `Network.enable` command is an external
fire-and-forget effect. -/
def onTargetAttached (s : RecorderState) (e : TargetAttachedEvent) :
    RecorderState :=
  let targetType := (e.targetInfo.getD {}).type.getD ""
  match e.sessionId with
  | none => s
  | some sid =>
      if targetType = "page" ∧ sid ≠ "" ∧ sid ∉ s.enabledSessions then
        { s with enabledSessions := s.enabledSessions ++ [sid] }
      else s

/-- The recorder as `__init__` leaves it (line 25-43). -/
def initRec (path : String) : RecorderState :=
  { harPath := path
    started := false
    entries := []
    pending := []
    extraInfoCache := []
    enabledSessions := [] }

/-- `start` (lines 45-100) as it affects correlator state: idempotent, sets
`_started` and resets `_enabled_sessions`; callback registration and the
eager `Network.enable` commands are external effects. -/
def startRec (s : RecorderState) : RecorderState :=
  if s.started then s else { s with started := true, enabledSessions := [] }

/-- `stop` (lines 350-407): no-op returning the path when not started;
otherwise drain every pending entry (in insertion order, unchanged) into
the output entries, clear pending, mark stopped, and return the configured
path. The `writeFails` flag models the HAR file write raising: the write
happens after the drain inside the catch-all `try`, so it changes nothing
and the path is still returned. -/
def stopRecorder (s : RecorderState) (writeFails : Bool) :
    RecorderState × String :=
  if s.started = false then (s, s.harPath)
  else
    let _ := writeFails
    ({ s with entries := s.entries ++ s.pending.map Prod.snd
              pending := []
              started := false },
     s.harPath)

/-- The closed set of instrumentation events routed to the handlers; the
request event carries the capture-time fallback `now`. -/
inductive Ev where
  | req (e : RequestWillBeSentEvent) (now : Int)
  | extraInfo (e : ExtraInfoEvent)
  | resp (e : ResponseReceivedEvent)
  | fin (e : LoadingFinishedEvent)
  | fail (e : LoadingFailedEvent)
  | target (e : TargetAttachedEvent)

/-- Route one event to its handler. -/
def step (s : RecorderState) : Ev → RecorderState
  | .req e now => onRequestWillBeSent s e now
  | .extraInfo e => onRequestWillBeSentExtraInfo s e
  | .resp e => onResponseReceived s e
  | .fin e => onLoadingFinished s e
  | .fail e => onLoadingFailed s e
  | .target e => onTargetAttached s e

/-- Deliver a sequence of events. -/
def run (s : RecorderState) (evs : List Ev) : RecorderState :=
  evs.foldl step s

end CdpHar

namespace CdpHar

theorem dfind_dinsert_self {α : Type} (m : List (String × α)) (k : String)
    (v : α) : dfind (dinsert m k v) k = some v := by
  induction m with
  | nil => simp [dinsert, dfind]
  | cons p rest ih =>
      by_cases h : p.1 = k
      · simp [dinsert, dfind, h]
      · simpa [dinsert, dfind, h] using ih

theorem dfind_dinsert_ne {α : Type} (m : List (String × α)) (k k' : String)
    (v : α) (h : k ≠ k') : dfind (dinsert m k v) k' = dfind m k' := by
  induction m with
  | nil => simp [dinsert, dfind, h]
  | cons p rest ih =>
      by_cases hp : p.1 = k
      · simp [dinsert, dfind, hp, h]
      · simp [dinsert, dfind, hp]
        split <;> simp_all [dfind]

theorem dfind_none_notkey {α : Type} {m : List (String × α)} {k : String}
    (h : dfind m k = none) : ∀ p ∈ m, p.1 ≠ k := by
  induction m with
  | nil => simp
  | cons p rest ih =>
      intro q hq
      rcases List.mem_cons.mp hq with rfl | hq
      · intro hk
        simp [dfind, hk] at h
      · have : dfind rest k = none := by
          by_cases hp : p.1 = k
          · simp [dfind, hp] at h
          · simpa [dfind, hp] using h
        exact ih this q hq

theorem derase_of_dfind_none {α : Type} {m : List (String × α)} {k : String}
    (h : dfind m k = none) : derase m k = m := by
  induction m with
  | nil => simp [derase]
  | cons p rest ih =>
      by_cases hp : p.1 = k
      · simp [dfind, hp] at h
      · have hrest : dfind rest k = none := by simpa [dfind, hp] using h
        have hr := ih hrest
        simp only [derase] at hr ⊢
        rw [List.filter_cons, if_pos (by simpa using hp), hr]

theorem dinsert_of_dfind_none {α : Type} {m : List (String × α)} {k : String}
    (v : α) (h : dfind m k = none) : dinsert m k v = m ++ [(k, v)] := by
  induction m with
  | nil => simp [dinsert]
  | cons p rest ih =>
      by_cases hp : p.1 = k
      · simp [dfind, hp] at h
      · have hrest : dfind rest k = none := by simpa [dfind, hp] using h
        simp [dinsert, hp, ih hrest]

theorem derase_append_self {α : Type} {m : List (String × α)} {k : String}
    (v : α) (h : dfind m k = none) :
    derase (m ++ [(k, v)]) k = m := by
  have : derase (m ++ [(k, v)]) k = derase m k ++ derase [(k, v)] k := by
    simp [derase]
  rw [this, derase_of_dfind_none h]
  simp [derase]

theorem mem_dinsert {α : Type} {m : List (String × α)} {k : String} {v : α}
    {p : String × α} (h : p ∈ dinsert m k v) : p = (k, v) ∨ p ∈ m := by
  induction m with
  | nil => simpa [dinsert] using h
  | cons q rest ih =>
      by_cases hq : q.1 = k
      · simp [dinsert, hq] at h
        rcases h with h | h
        · left; simp [h]
        · right; simp [h]
      · simp [dinsert, hq] at h
        rcases h with h | h
        · right; simp [h]
        · rcases ih h with h2 | h2
          · left; exact h2
          · right; simp [h2]

theorem mem_derase {α : Type} {m : List (String × α)} {k : String}
    {p : String × α} (h : p ∈ derase m k) : p ∈ m :=
  List.mem_of_mem_filter h

theorem dfind_mem {α : Type} {m : List (String × α)} {k : String} {v : α}
    (h : dfind m k = some v) : (k, v) ∈ m := by
  induction m with
  | nil => simp [dfind] at h
  | cons q rest ih =>
      rcases q with ⟨a, b⟩
      by_cases hq : a = k
      · simp [dfind, hq] at h
        subst hq
        subst h
        exact List.mem_cons_self _ _
      · simp [dfind, hq] at h
        exact List.mem_cons_of_mem _ (ih h)

theorem mergeEntryHeaders_method (entry : Entry)
    (extra : List (String × String)) :
    (mergeEntryHeaders entry extra).request.method = entry.request.method :=
  rfl

theorem mergeEntryHeaders_response (entry : Entry)
    (extra : List (String × String)) :
    (mergeEntryHeaders entry extra).response = entry.response :=
  rfl

theorem buildEntry_response (rid : String) (request : RequestData)
    (wallTime : Option Int) (now : Int) :
    (buildEntry rid request wallTime now).response =
      { status := 0
        statusText := ""
        httpVersion := "HTTP/1.1"
        headers := []
        content := { size := 0, mimeType := "", text := none }
        redirectURL := ""
        headersSize := -1
        bodySize := -1 } :=
  rfl

end CdpHar

namespace CdpHar

theorem dfind_derase_self {α : Type} (m : List (String × α)) (k : String) :
    dfind (derase m k) k = none := by
  induction m with
  | nil => simp [derase, dfind]
  | cons p rest ih =>
      rcases p with ⟨a, v⟩
      by_cases hp : a = k
      · simpa [derase, List.filter_cons, hp] using ih
      · simp only [derase, List.filter_cons] at ih ⊢
        rw [if_pos (by simpa using hp)]
        rw [dfind, if_neg hp]
        exact ih

theorem dinsert_dinsert_self {α : Type} (m : List (String × α)) (k : String)
    (v w : α) : dinsert (dinsert m k v) k w = dinsert m k w := by
  induction m with
  | nil => simp [dinsert]
  | cons p rest ih =>
      by_cases hp : p.1 = k
      · simp [dinsert, hp]
      · simp [dinsert, hp, ih]

/-- First value under a header name in a HAR header list. -/
def headerFind (hs : List Header) (n : String) : Option String :=
  match hs with
  | [] => none
  | h :: rest => if h.name = n then some h.value else headerFind rest n

theorem headerFind_append_of_mem (hs tl : List Header) (n : String)
    (h : n ∈ hs.map Header.name) :
    headerFind (hs ++ tl) n = headerFind hs n := by
  induction hs with
  | nil => simp at h
  | cons hd rest ih =>
      by_cases hn : hd.name = n
      · simp [headerFind, hn]
      · simp only [List.map_cons, List.mem_cons] at h
        rcases h with h | h
        · exact absurd h.symm hn
        · simp [headerFind, hn, ih h]

theorem mergeHeaderList_names (hs : List Header)
    (ex : List (String × String)) (n : String) (hmem : n ∈ hs.map Header.name) :
    n ∈ (mergeHeaderList hs ex).map Header.name := by
  simp only [mergeHeaderList, List.map_append, List.mem_append]
  exact Or.inl hmem

theorem mergeHeaderList_idem (hs : List Header)
    (ex : List (String × String)) :
    mergeHeaderList (mergeHeaderList hs ex) ex = mergeHeaderList hs ex := by
  have hnil : ex.filter
      (fun p => decide (p.1 ∉ (mergeHeaderList hs ex).map Header.name)) = [] := by
    rw [List.filter_eq_nil_iff]
    intro p hp
    simp only [decide_eq_true_eq, Decidable.not_not]
    by_cases hin : p.1 ∈ hs.map Header.name
    · exact mergeHeaderList_names hs ex p.1 hin
    · simp only [mergeHeaderList, List.map_append, List.mem_append, List.map_map]
      right
      refine List.mem_map.mpr ⟨p, ?_, rfl⟩
      exact List.mem_filter.mpr ⟨hp, by simpa using hin⟩
  conv_lhs => rw [mergeHeaderList]
  rw [hnil]
  simp

theorem headerFind_mergeHeaderList_of_mem (hs : List Header)
    (ex : List (String × String)) (n : String)
    (h : n ∈ hs.map Header.name) :
    headerFind (mergeHeaderList hs ex) n = headerFind hs n :=
  headerFind_append_of_mem hs _ n h

theorem respUpdateEntry_request (entry : Entry) (rd : ResponseData) :
    (respUpdateEntry entry rd).request = entry.request := rfl

theorem respUpdateEntry_text (entry : Entry) (rd : ResponseData) :
    (respUpdateEntry entry rd).response.content.text =
      entry.response.content.text := rfl

theorem finishUpdateEntry_request (entry : Entry) (len : Int) :
    (finishUpdateEntry entry len).request = entry.request := rfl

theorem finishUpdateEntry_text (entry : Entry) (len : Int) :
    (finishUpdateEntry entry len).response.content.text = some "" := rfl

theorem failUpdateEntry_request (entry : Entry) (t : String) :
    (failUpdateEntry entry t).request = entry.request := rfl

theorem failUpdateEntry_text (entry : Entry) (t : String) :
    (failUpdateEntry entry t).response.content.text =
      entry.response.content.text := rfl

theorem failUpdateEntry_status (entry : Entry) (t : String) :
    (failUpdateEntry entry t).response.status = 0 := rfl

theorem failUpdateEntry_statusText (entry : Entry) (t : String) :
    (failUpdateEntry entry t).response.statusText = t := rfl

theorem buildEntry_method (rid : String) (rd : RequestData)
    (wt : Option Int) (now : Int) :
    (buildEntry rid rd wt now).request.method = rd.method.getD "GET" := rfl

end CdpHar

namespace CdpHar

theorem onRequestWillBeSent_entries (s : RecorderState)
    (e : RequestWillBeSentEvent) (now : Int) :
    (onRequestWillBeSent s e now).entries = s.entries := by
  obtain ⟨rid?, req?, wt, rr⟩ := e
  cases rid? with
  | none => rfl
  | some rid =>
      unfold onRequestWillBeSent
      dsimp only
      by_cases hr : rid = ""
      · rw [if_pos hr]
      · rw [if_neg hr]
        cases dfind s.extraInfoCache rid <;> rfl

theorem onRequestWillBeSentExtraInfo_entries (s : RecorderState)
    (e : ExtraInfoEvent) :
    (onRequestWillBeSentExtraInfo s e).entries = s.entries := by
  obtain ⟨rid?, hdrs?⟩ := e
  cases rid? with
  | none => rfl
  | some rid =>
      unfold onRequestWillBeSentExtraInfo
      dsimp only
      by_cases hr : rid = ""
      · rw [if_pos hr]
      · rw [if_neg hr]
        cases dfind s.pending rid with
        | none => rfl
        | some entry =>
            dsimp only
            by_cases he : hdrs?.getD [] = []
            · rw [if_pos he]
            · rw [if_neg he]

theorem onResponseReceived_entries (s : RecorderState)
    (e : ResponseReceivedEvent) :
    (onResponseReceived s e).entries = s.entries := by
  obtain ⟨rid?, rd?⟩ := e
  cases rid? with
  | none => rfl
  | some rid =>
      unfold onResponseReceived
      dsimp only
      by_cases hr : rid = ""
      · rw [if_pos hr]
      · rw [if_neg hr]
        cases dfind s.pending rid <;> rfl

theorem onTargetAttached_parts (s : RecorderState) (e : TargetAttachedEvent) :
    (onTargetAttached s e).entries = s.entries ∧
    (onTargetAttached s e).pending = s.pending ∧
    (onTargetAttached s e).extraInfoCache = s.extraInfoCache := by
  obtain ⟨sid?, ti?⟩ := e
  cases sid? with
  | none => exact ⟨rfl, rfl, rfl⟩
  | some sid =>
      unfold onTargetAttached
      dsimp only
      split <;> exact ⟨rfl, rfl, rfl⟩

theorem mem_pending_onRequestWillBeSent (s : RecorderState)
    (e : RequestWillBeSentEvent) (now : Int) (p : String × Entry)
    (hp : p ∈ (onRequestWillBeSent s e now).pending) :
    p ∈ s.pending ∨
    (∃ rid, p = (rid, buildEntry rid (e.request.getD {}) e.wallTime now)) ∨
    (∃ rid cached,
      p = (rid,
        mergeEntryHeaders (buildEntry rid (e.request.getD {}) e.wallTime now)
          cached)) := by
  obtain ⟨rid?, req?, wt, rr⟩ := e
  cases rid? with
  | none => exact Or.inl hp
  | some rid =>
      unfold onRequestWillBeSent at hp
      dsimp only at hp
      by_cases hr : rid = ""
      · rw [if_pos hr] at hp
        exact Or.inl hp
      · rw [if_neg hr] at hp
        cases hc : dfind s.extraInfoCache rid with
        | none =>
            rw [hc] at hp
            dsimp only at hp
            rcases mem_dinsert hp with h | h
            · exact Or.inr (Or.inl ⟨rid, h⟩)
            · exact Or.inl h
        | some cached =>
            rw [hc] at hp
            dsimp only at hp
            by_cases hcc : cached = []
            · rw [if_pos hcc] at hp
              rcases mem_dinsert hp with h | h
              · exact Or.inr (Or.inl ⟨rid, h⟩)
              · exact Or.inl h
            · rw [if_neg hcc] at hp
              rcases mem_dinsert hp with h | h
              · exact Or.inr (Or.inr ⟨rid, cached, h⟩)
              · exact Or.inl h

theorem mem_pending_onExtraInfo (s : RecorderState) (e : ExtraInfoEvent)
    (p : String × Entry)
    (hp : p ∈ (onRequestWillBeSentExtraInfo s e).pending) :
    p ∈ s.pending ∨
    ∃ q ex, q ∈ s.pending ∧ p = (q.1, mergeEntryHeaders q.2 ex) := by
  obtain ⟨rid?, hdrs?⟩ := e
  cases rid? with
  | none => exact Or.inl hp
  | some rid =>
      unfold onRequestWillBeSentExtraInfo at hp
      dsimp only at hp
      by_cases hr : rid = ""
      · rw [if_pos hr] at hp
        exact Or.inl hp
      · rw [if_neg hr] at hp
        cases hc : dfind s.pending rid with
        | none =>
            rw [hc] at hp
            exact Or.inl hp
        | some entry =>
            rw [hc] at hp
            dsimp only at hp
            by_cases he : hdrs?.getD [] = []
            · rw [if_pos he] at hp
              exact Or.inl hp
            · rw [if_neg he] at hp
              rcases mem_dinsert hp with h | h
              · exact Or.inr ⟨(rid, entry), hdrs?.getD [],
                  dfind_mem hc, by simpa using h⟩
              · exact Or.inl h

theorem mem_pending_onResponseReceived (s : RecorderState)
    (e : ResponseReceivedEvent) (p : String × Entry)
    (hp : p ∈ (onResponseReceived s e).pending) :
    p ∈ s.pending ∨
    ∃ q rd, q ∈ s.pending ∧ p = (q.1, respUpdateEntry q.2 rd) := by
  obtain ⟨rid?, rd?⟩ := e
  cases rid? with
  | none => exact Or.inl hp
  | some rid =>
      unfold onResponseReceived at hp
      dsimp only at hp
      by_cases hr : rid = ""
      · rw [if_pos hr] at hp
        exact Or.inl hp
      · rw [if_neg hr] at hp
        cases hc : dfind s.pending rid with
        | none =>
            rw [hc] at hp
            exact Or.inl hp
        | some entry =>
            rw [hc] at hp
            dsimp only at hp
            rcases mem_dinsert hp with h | h
            · exact Or.inr ⟨(rid, entry), rd?.getD {},
                dfind_mem hc, by simpa using h⟩
            · exact Or.inl h

theorem onLoadingFinished_cases (s : RecorderState)
    (e : LoadingFinishedEvent) :
    onLoadingFinished s e = s ∨
    ∃ rid entry, e.requestId = some rid ∧ rid ≠ "" ∧
      dfind s.pending rid = some entry ∧
      onLoadingFinished s e =
        { s with pending := derase s.pending rid
                 entries := s.entries ++
                   [finishUpdateEntry entry (e.encodedDataLength.getD 0)] } := by
  obtain ⟨rid?, len?⟩ := e
  cases rid? with
  | none => exact Or.inl rfl
  | some rid =>
      unfold onLoadingFinished
      dsimp only
      by_cases hr : rid = ""
      · rw [if_pos hr]
        exact Or.inl rfl
      · rw [if_neg hr]
        cases hc : dfind s.pending rid with
        | none => exact Or.inl rfl
        | some entry => exact Or.inr ⟨rid, entry, rfl, hr, hc, rfl⟩

theorem onLoadingFailed_cases (s : RecorderState) (e : LoadingFailedEvent) :
    onLoadingFailed s e = s ∨
    ∃ rid entry, e.requestId = some rid ∧ rid ≠ "" ∧
      dfind s.pending rid = some entry ∧
      onLoadingFailed s e =
        { s with pending := derase s.pending rid
                 entries := s.entries ++
                   [failUpdateEntry entry (e.errorText.getD "Failed")] } := by
  obtain ⟨rid?, err?⟩ := e
  cases rid? with
  | none => exact Or.inl rfl
  | some rid =>
      unfold onLoadingFailed
      dsimp only
      by_cases hr : rid = ""
      · rw [if_pos hr]
        exact Or.inl rfl
      · rw [if_neg hr]
        cases hc : dfind s.pending rid with
        | none => exact Or.inl rfl
        | some entry => exact Or.inr ⟨rid, entry, rfl, hr, hc, rfl⟩

theorem onRequestWillBeSent_started (s : RecorderState)
    (e : RequestWillBeSentEvent) (now : Int) :
    (onRequestWillBeSent s e now).started = s.started := by
  obtain ⟨rid?, req?, wt, rr⟩ := e
  cases rid? with
  | none => rfl
  | some rid =>
      unfold onRequestWillBeSent
      dsimp only
      by_cases hr : rid = ""
      · rw [if_pos hr]
      · rw [if_neg hr]
        cases dfind s.extraInfoCache rid <;> rfl

theorem onRequestWillBeSentExtraInfo_started (s : RecorderState)
    (e : ExtraInfoEvent) :
    (onRequestWillBeSentExtraInfo s e).started = s.started := by
  obtain ⟨rid?, hdrs?⟩ := e
  cases rid? with
  | none => rfl
  | some rid =>
      unfold onRequestWillBeSentExtraInfo
      dsimp only
      by_cases hr : rid = ""
      · rw [if_pos hr]
      · rw [if_neg hr]
        cases dfind s.pending rid with
        | none => rfl
        | some entry =>
            dsimp only
            by_cases he : hdrs?.getD [] = []
            · rw [if_pos he]
            · rw [if_neg he]

theorem onResponseReceived_started (s : RecorderState)
    (e : ResponseReceivedEvent) :
    (onResponseReceived s e).started = s.started := by
  obtain ⟨rid?, rd?⟩ := e
  cases rid? with
  | none => rfl
  | some rid =>
      unfold onResponseReceived
      dsimp only
      by_cases hr : rid = ""
      · rw [if_pos hr]
      · rw [if_neg hr]
        cases dfind s.pending rid <;> rfl

theorem step_started (s : RecorderState) (ev : Ev) :
    (step s ev).started = s.started := by
  cases ev with
  | req e now => exact onRequestWillBeSent_started s e now
  | extraInfo e => exact onRequestWillBeSentExtraInfo_started s e
  | resp e => exact onResponseReceived_started s e
  | fin e =>
      rcases onLoadingFinished_cases s e with h | ⟨rid, entry, _, _, _, h⟩ <;>
        · show (onLoadingFinished s e).started = s.started
          rw [h]
  | fail e =>
      rcases onLoadingFailed_cases s e with h | ⟨rid, entry, _, _, _, h⟩ <;>
        · show (onLoadingFailed s e).started = s.started
          rw [h]
  | target e =>
      show (onTargetAttached s e).started = s.started
      obtain ⟨sid?, ti?⟩ := e
      cases sid? with
      | none => rfl
      | some sid =>
          unfold onTargetAttached
          dsimp only
          split <;> rfl

theorem run_started (s : RecorderState) (evs : List Ev) :
    (run s evs).started = s.started := by
  induction evs generalizing s with
  | nil => rfl
  | cons ev rest ih =>
      show (run (step s ev) rest).started = s.started
      rw [ih (step s ev), step_started]

end CdpHar

namespace CdpHar

/-- Every output entry and every pending entry has a non-empty
`request.method`. -/
def MethodInv (s : RecorderState) : Prop :=
  (∀ en ∈ s.entries, en.request.method ≠ "") ∧
  (∀ p ∈ s.pending, p.2.request.method ≠ "")

/-- Event wellformedness for `MethodInv`: request events never carry an
explicitly empty method string (an absent method is fine; it defaults to
`"GET"`). -/
def methodFieldOk : Ev → Bool
  | .req e _ => decide ((e.request.getD {}).method ≠ some "")
  | _ => true

theorem buildEntry_method_ne (rid : String) (rd : RequestData)
    (wt : Option Int) (now : Int) (h : rd.method ≠ some "") :
    (buildEntry rid rd wt now).request.method ≠ "" := by
  rw [buildEntry_method]
  cases hm : rd.method with
  | none => simp
  | some m =>
      simp only [Option.getD_some]
      intro hm0
      exact h (by rw [hm, hm0])

theorem methodInv_step (s : RecorderState) (ev : Ev) (h : MethodInv s)
    (hok : methodFieldOk ev = true) : MethodInv (step s ev) := by
  obtain ⟨hent, hpend⟩ := h
  cases ev with
  | req e now =>
      have hm : (e.request.getD {}).method ≠ some "" := by
        simpa [methodFieldOk] using hok
      constructor
      · show ∀ en ∈ (onRequestWillBeSent s e now).entries, _
        rw [onRequestWillBeSent_entries]
        exact hent
      · intro p hp
        rcases mem_pending_onRequestWillBeSent s e now p hp with
          h | ⟨rid, h⟩ | ⟨rid, cached, h⟩
        · exact hpend p h
        · rw [h]
          exact buildEntry_method_ne rid _ e.wallTime now hm
        · rw [h]
          show (mergeEntryHeaders _ _).request.method ≠ ""
          rw [mergeEntryHeaders_method]
          exact buildEntry_method_ne rid _ e.wallTime now hm
  | extraInfo e =>
      constructor
      · show ∀ en ∈ (onRequestWillBeSentExtraInfo s e).entries, _
        rw [onRequestWillBeSentExtraInfo_entries]
        exact hent
      · intro p hp
        rcases mem_pending_onExtraInfo s e p hp with h | ⟨q, ex, hq, h⟩
        · exact hpend p h
        · rw [h]
          show (mergeEntryHeaders _ _).request.method ≠ ""
          rw [mergeEntryHeaders_method]
          exact hpend q hq
  | resp e =>
      constructor
      · show ∀ en ∈ (onResponseReceived s e).entries, _
        rw [onResponseReceived_entries]
        exact hent
      · intro p hp
        rcases mem_pending_onResponseReceived s e p hp with h | ⟨q, rd, hq, h⟩
        · exact hpend p h
        · rw [h]
          show (respUpdateEntry _ _).request.method ≠ ""
          rw [respUpdateEntry_request]
          exact hpend q hq
  | fin e =>
      rcases onLoadingFinished_cases s e with h | ⟨rid, entry, _, _, hc, h⟩
      · show MethodInv (onLoadingFinished s e)
        rw [h]
        exact ⟨hent, hpend⟩
      · show MethodInv (onLoadingFinished s e)
        rw [h]
        constructor
        · intro en hen
          rcases List.mem_append.mp hen with hen | hen
          · exact hent en hen
          · have : en = finishUpdateEntry entry (e.encodedDataLength.getD 0) := by
              simpa using hen
            rw [this]
            show (finishUpdateEntry _ _).request.method ≠ ""
            rw [finishUpdateEntry_request]
            exact hpend (rid, entry) (dfind_mem hc)
        · intro p hp
          exact hpend p (mem_derase hp)
  | fail e =>
      rcases onLoadingFailed_cases s e with h | ⟨rid, entry, _, _, hc, h⟩
      · show MethodInv (onLoadingFailed s e)
        rw [h]
        exact ⟨hent, hpend⟩
      · show MethodInv (onLoadingFailed s e)
        rw [h]
        constructor
        · intro en hen
          rcases List.mem_append.mp hen with hen | hen
          · exact hent en hen
          · have : en = failUpdateEntry entry (e.errorText.getD "Failed") := by
              simpa using hen
            rw [this]
            show (failUpdateEntry _ _).request.method ≠ ""
            rw [failUpdateEntry_request]
            exact hpend (rid, entry) (dfind_mem hc)
        · intro p hp
          exact hpend p (mem_derase hp)
  | target e =>
      obtain ⟨he, hp2, _⟩ := onTargetAttached_parts s e
      constructor
      · show ∀ en ∈ (onTargetAttached s e).entries, _
        rw [he]
        exact hent
      · show ∀ p ∈ (onTargetAttached s e).pending, _
        rw [hp2]
        exact hpend

theorem methodInv_run (s : RecorderState) (evs : List Ev) (h : MethodInv s)
    (hok : ∀ e ∈ evs, methodFieldOk e = true) : MethodInv (run s evs) := by
  induction evs generalizing s with
  | nil => exact h
  | cons ev rest ih =>
      show MethodInv (run (step s ev) rest)
      exact ih (step s ev) (methodInv_step s ev h (hok ev (by simp)))
        (fun e he => hok e (by simp [he]))

/-- Every pending entry's `response.content` still lacks the `"text"` key:
only the loading-finished terminal adds it. -/
def PendingTextNone (s : RecorderState) : Prop :=
  ∀ p ∈ s.pending, p.2.response.content.text = none

theorem pendingTextNone_step (s : RecorderState) (ev : Ev)
    (h : PendingTextNone s) : PendingTextNone (step s ev) := by
  cases ev with
  | req e now =>
      intro p hp
      rcases mem_pending_onRequestWillBeSent s e now p hp with
        hh | ⟨rid, hh⟩ | ⟨rid, cached, hh⟩
      · exact h p hh
      · rw [hh]
        show (buildEntry _ _ _ _).response.content.text = none
        rw [buildEntry_response]
      · rw [hh]
        show (mergeEntryHeaders _ _).response.content.text = none
        rw [mergeEntryHeaders_response, buildEntry_response]
  | extraInfo e =>
      intro p hp
      rcases mem_pending_onExtraInfo s e p hp with hh | ⟨q, ex, hq, hh⟩
      · exact h p hh
      · rw [hh]
        show (mergeEntryHeaders _ _).response.content.text = none
        rw [mergeEntryHeaders_response]
        exact h q hq
  | resp e =>
      intro p hp
      rcases mem_pending_onResponseReceived s e p hp with hh | ⟨q, rd, hq, hh⟩
      · exact h p hh
      · rw [hh]
        show (respUpdateEntry _ _).response.content.text = none
        rw [respUpdateEntry_text]
        exact h q hq
  | fin e =>
      rcases onLoadingFinished_cases s e with hh | ⟨rid, entry, _, _, _, hh⟩ <;>
        · intro p hp
          show p.2.response.content.text = none
          refine h p ?_
          revert hp
          show p ∈ (onLoadingFinished s e).pending → p ∈ s.pending
          rw [hh]
          first
            | exact id
            | exact fun hp => mem_derase hp
  | fail e =>
      rcases onLoadingFailed_cases s e with hh | ⟨rid, entry, _, _, _, hh⟩ <;>
        · intro p hp
          show p.2.response.content.text = none
          refine h p ?_
          revert hp
          show p ∈ (onLoadingFailed s e).pending → p ∈ s.pending
          rw [hh]
          first
            | exact id
            | exact fun hp => mem_derase hp
  | target e =>
      intro p hp
      obtain ⟨_, hp2, _⟩ := onTargetAttached_parts s e
      refine h p ?_
      rw [← hp2]
      exact hp

theorem pendingTextNone_run (s : RecorderState) (evs : List Ev)
    (h : PendingTextNone s) : PendingTextNone (run s evs) := by
  induction evs generalizing s with
  | nil => exact h
  | cons ev rest ih =>
      show PendingTextNone (run (step s ev) rest)
      exact ih (step s ev) (pendingTextNone_step s ev h)

end CdpHar

namespace CdpHar

/-- Claim C7: for every response-received, load-finished, or load-failed
event whose request identifier has no pending entry (an orphan event), the
corresponding handler is a no-op: the whole recorder state — pending map,
extra-metadata cache and output entries — is unchanged, and the handler is
a total function, so no error is raised. -/
theorem c7_orphan_events_are_noops (s : RecorderState) (rid : String)
    (rd : Option ResponseData) (len : Option Int) (err : Option String)
    (h : dfind s.pending rid = none) :
    onResponseReceived s { requestId := some rid, response := rd } = s ∧
    onLoadingFinished s
      { requestId := some rid, encodedDataLength := len } = s ∧
    onLoadingFailed s { requestId := some rid, errorText := err } = s := by
  refine ⟨?_, ?_, ?_⟩
  · unfold onResponseReceived
    dsimp only
    by_cases hr : rid = ""
    · rw [if_pos hr]
    · rw [if_neg hr, h]
  · unfold onLoadingFinished
    dsimp only
    by_cases hr : rid = ""
    · rw [if_pos hr]
    · rw [if_neg hr, h]
  · unfold onLoadingFailed
    dsimp only
    by_cases hr : rid = ""
    · rw [if_pos hr]
    · rw [if_neg hr, h]

/-- Witness for C7 at the spec scenario: the unknown id `"r9"` on a freshly
started recorder leaves the state untouched for all three handlers. -/
theorem c7_orphan_events_are_noops_witness :
    onResponseReceived (startRec (initRec "c7.har"))
        { requestId := some "r9", response := none } =
      startRec (initRec "c7.har") ∧
    onLoadingFinished (startRec (initRec "c7.har"))
        { requestId := some "r9", encodedDataLength := none } =
      startRec (initRec "c7.har") ∧
    onLoadingFailed (startRec (initRec "c7.har"))
        { requestId := some "r9", errorText := none } =
      startRec (initRec "c7.har") :=
  c7_orphan_events_are_noops (startRec (initRec "c7.har")) "r9" none none none
    (by decide)

/-- Claim C6: `stop` never raises (it is a total function) and returns the
configured archive path unconditionally: it is a no-op returning the path
when recording was never started, and otherwise it moves each of the K
still-pending entries unchanged, in insertion order, into the output
collection — exactly K additional entries, none lost or fabricated — and
returns the path even when the file write fails. -/
theorem c6_stop_returns_path_and_drains (s : RecorderState)
    (writeFails : Bool) :
    (stopRecorder s writeFails).2 = s.harPath ∧
    (s.started = false → (stopRecorder s writeFails).1 = s) ∧
    (s.started = true →
      (stopRecorder s writeFails).1.entries =
        s.entries ++ s.pending.map Prod.snd ∧
      (stopRecorder s writeFails).1.pending = [] ∧
      (stopRecorder s writeFails).1.entries.length =
        s.entries.length + s.pending.length) := by
  unfold stopRecorder
  by_cases hs : s.started = true
  · rw [if_neg (by simp [hs])]
    exact ⟨rfl, fun hf => absurd hs (by simp [hf]),
      fun _ => ⟨rfl, rfl, by simp⟩⟩
  · rw [if_pos (by simpa using hs)]
    exact ⟨rfl, fun _ => rfl, fun ht => absurd ht hs⟩

/-- A started recorder holding two pending requests and no finished
entries, for the C6 witness. -/
def exampleStopState : RecorderState :=
  run (startRec (initRec "c6.har"))
    [.req { requestId := some "a1",
            request := some { method := some "GET",
                              url := some "https://a/" } } 5,
     .req { requestId := some "a2",
            request := some { method := some "POST",
                              url := some "https://b/" } } 6]

/-- Witness for C6: draining the two pending entries adds exactly two
output entries and returns the configured path; on a never-started
recorder `stop` is the identity. -/
theorem c6_stop_returns_path_and_drains_witness :
    (stopRecorder exampleStopState true).2 = exampleStopState.harPath ∧
    (stopRecorder exampleStopState true).1.entries.length =
      exampleStopState.entries.length + exampleStopState.pending.length ∧
    (stopRecorder (initRec "c6b.har") false).1 = initRec "c6b.har" :=
  ⟨(c6_stop_returns_path_and_drains exampleStopState true).1,
   ((c6_stop_returns_path_and_drains exampleStopState true).2.2
      (by decide)).2.2,
   (c6_stop_returns_path_and_drains (initRec "c6b.har") false).2.1
      (by decide)⟩

/-- Claim C5 as stated is false: a load-failed event whose `errorText` key
is present but holds the empty string yields an output entry with
`statusText = ""` — the `"Failed"` default only covers an absent key, so
the status text is not "always non-empty". -/
theorem c5_counterexample :
    ¬ (∀ en ∈ (run (startRec (initRec "c5.har"))
        [.req { requestId := some "r2",
                request := some { method := some "GET",
                                  url := some "https://a/" } } 0,
         .fail { requestId := some "r2", errorText := some "" }]).entries,
        en.response.statusText ≠ "") := by
  decide

/-- Claim C5 amended: a load-failed event with a pending entry removes it
from the pending map and appends it exactly once to the output with
`response.status = 0` and `response.statusText` equal to the event's
`errorText` when present (which may be the empty string) or `"Failed"`
when the key is absent; the status text is non-empty whenever the event
does not carry an explicitly empty `errorText`, and the appended entry has
status 0, not a successful status. -/
theorem c5_loading_failed_terminal (s : RecorderState)
    (e : LoadingFailedEvent) (rid : String) (entry : Entry)
    (h1 : e.requestId = some rid) (h2 : rid ≠ "")
    (h3 : dfind s.pending rid = some entry) :
    (onLoadingFailed s e).entries =
      s.entries ++ [failUpdateEntry entry (e.errorText.getD "Failed")] ∧
    (onLoadingFailed s e).pending = derase s.pending rid ∧
    dfind (onLoadingFailed s e).pending rid = none ∧
    (failUpdateEntry entry (e.errorText.getD "Failed")).response.status = 0 ∧
    (e.errorText = none →
      (failUpdateEntry entry
        (e.errorText.getD "Failed")).response.statusText = "Failed") ∧
    (∀ t, e.errorText = some t →
      (failUpdateEntry entry
        (e.errorText.getD "Failed")).response.statusText = t) ∧
    ((∀ t, e.errorText = some t → t ≠ "") →
      (failUpdateEntry entry
        (e.errorText.getD "Failed")).response.statusText ≠ "") := by
  obtain ⟨rid?, err?⟩ := e
  dsimp only at h1 ⊢
  subst h1
  unfold onLoadingFailed
  dsimp only
  rw [if_neg h2, h3]
  refine ⟨rfl, rfl, dfind_derase_self _ _, rfl, ?_, ?_, ?_⟩
  · intro hn
    rw [failUpdateEntry_statusText, hn]
    rfl
  · intro t ht
    rw [failUpdateEntry_statusText, ht]
    rfl
  · intro hne
    rw [failUpdateEntry_statusText]
    cases herr : err? with
    | none => simp
    | some t =>
        simp only [Option.getD_some]
        exact hne t herr

/-- A started recorder with one pending request `"r2"`, for witnesses. -/
def examplePendingR2 : RecorderState :=
  run (startRec (initRec "c5w.har"))
    [.req { requestId := some "r2",
            request := some { method := some "GET",
                              url := some "https://a/" } } 0]

/-- Witness for C5 at the spec scenario: `"r2"` failed with
`"net::ERR_ABORTED"` is appended once with status 0 and that non-empty
status text. -/
theorem c5_loading_failed_terminal_witness :
    (onLoadingFailed examplePendingR2
        { requestId := some "r2",
          errorText := some "net::ERR_ABORTED" }).entries =
      examplePendingR2.entries ++
        [failUpdateEntry
          (buildEntry "r2" { method := some "GET", url := some "https://a/" }
            none 0) "net::ERR_ABORTED"] ∧
    (failUpdateEntry
        (buildEntry "r2" { method := some "GET", url := some "https://a/" }
          none 0) "net::ERR_ABORTED").response.status = 0 ∧
    (failUpdateEntry
        (buildEntry "r2" { method := some "GET", url := some "https://a/" }
          none 0) "net::ERR_ABORTED").response.statusText ≠ "" := by
  have h := c5_loading_failed_terminal examplePendingR2
    { requestId := some "r2", errorText := some "net::ERR_ABORTED" }
    "r2"
    (buildEntry "r2" { method := some "GET", url := some "https://a/" } none 0)
    rfl (by decide) (by decide)
  exact ⟨h.1, h.2.2.2.1, h.2.2.2.2.2.2
    (fun t ht => by cases ht; decide)⟩

end CdpHar

namespace CdpHar

/-- Claim C8 as stated is false: a response event whose timing payload
carries only `receiveHeadersEnd = 5` (no `sendEnd`) sets `timings.wait` to
5 − 0 = 5, not 0 — the code only skips the computation when the timing
dict is absent or empty, and defaults each missing field to 0. -/
theorem c8_counterexample :
    (dfind (run (startRec (initRec "c8.har"))
        [.req { requestId := some "r1",
                request := some { method := some "GET",
                                  url := some "https://a/" } } 0,
         .resp { requestId := some "r1",
                 response := some
                   { timing := some [("receiveHeadersEnd", 5)] } }]).pending
      "r1").map
      (fun en => en.timings.wait) = some 5 ∧ (5 : Int) ≠ 0 := by
  exact ⟨by decide, by decide⟩

/-- Claim C8 amended: for a response-received event with a pending entry,
`timings.wait` is set to `receiveHeadersEnd − sendEnd` whenever the timing
payload is present and non-empty, each of the two fields defaulting to 0
when missing (so with only `receiveHeadersEnd` present wait becomes that
value, and with only `sendEnd` present it becomes its negation); `wait` is
left unchanged only when the timing payload is absent or is the empty
dict. -/
theorem c8_wait_timing (s : RecorderState) (e : ResponseReceivedEvent)
    (rid : String) (entry : Entry) (rd : ResponseData)
    (h1 : e.requestId = some rid) (h2 : rid ≠ "")
    (h3 : dfind s.pending rid = some entry) (h4 : e.response = some rd) :
    dfind (onResponseReceived s e).pending rid =
      some (respUpdateEntry entry rd) ∧
    (rd.timing = none →
      (respUpdateEntry entry rd).timings.wait = entry.timings.wait) ∧
    (rd.timing = some [] →
      (respUpdateEntry entry rd).timings.wait = entry.timings.wait) ∧
    (∀ t rhe se, rd.timing = some t → t ≠ [] →
      dfind t "receiveHeadersEnd" = some rhe → dfind t "sendEnd" = some se →
      (respUpdateEntry entry rd).timings.wait = rhe - se) ∧
    (∀ t rhe, rd.timing = some t → t ≠ [] →
      dfind t "receiveHeadersEnd" = some rhe → dfind t "sendEnd" = none →
      (respUpdateEntry entry rd).timings.wait = rhe) ∧
    (∀ t se, rd.timing = some t → t ≠ [] →
      dfind t "sendEnd" = some se → dfind t "receiveHeadersEnd" = none →
      (respUpdateEntry entry rd).timings.wait = -se) := by
  refine ⟨?_, ?_, ?_, ?_, ?_, ?_⟩
  · obtain ⟨rid?, rdo⟩ := e
    dsimp only at h1 h4 ⊢
    subst h1
    subst h4
    unfold onResponseReceived
    dsimp only
    rw [if_neg h2, h3]
    dsimp only [Option.getD_some]
    exact dfind_dinsert_self _ _ _
  · intro ht
    unfold respUpdateEntry
    rw [ht]
  · intro ht
    unfold respUpdateEntry
    rw [ht]
    dsimp only
    rw [if_pos rfl]
  · intro t rhe se ht hne hrhe hse
    unfold respUpdateEntry
    rw [ht]
    dsimp only
    rw [if_neg hne]
    dsimp only [dfindD]
    rw [hrhe, hse]
    rfl
  · intro t rhe ht hne hrhe hse
    unfold respUpdateEntry
    rw [ht]
    dsimp only
    rw [if_neg hne]
    dsimp only [dfindD]
    rw [hrhe, hse]
    simp
  · intro t se ht hne hse hrhe
    unfold respUpdateEntry
    rw [ht]
    dsimp only
    rw [if_neg hne]
    dsimp only [dfindD]
    rw [hrhe, hse]
    simp

/-- Witness for C8: a pending `"r2"` entry receiving a response whose
timing dict holds only `receiveHeadersEnd = 5` ends up with wait 5. -/
theorem c8_wait_timing_witness :
    dfind (onResponseReceived examplePendingR2
        { requestId := some "r2",
          response := some
            { timing := some [("receiveHeadersEnd", 5)] } }).pending "r2" =
      some (respUpdateEntry
        (buildEntry "r2" { method := some "GET", url := some "https://a/" }
          none 0)
        { timing := some [("receiveHeadersEnd", 5)] }) ∧
    (respUpdateEntry
        (buildEntry "r2" { method := some "GET", url := some "https://a/" }
          none 0)
        { timing := some [("receiveHeadersEnd", 5)] }).timings.wait = 5 := by
  have h := c8_wait_timing examplePendingR2
    { requestId := some "r2",
      response := some { timing := some [("receiveHeadersEnd", 5)] } }
    "r2"
    (buildEntry "r2" { method := some "GET", url := some "https://a/" } none 0)
    { timing := some [("receiveHeadersEnd", 5)] }
    rfl (by decide) (by decide) rfl
  exact ⟨h.1, h.2.2.2.2.1 [("receiveHeadersEnd", 5)] 5 rfl (by decide)
    (by decide) (by decide)⟩

end CdpHar

namespace CdpHar

theorem stopRecorder_started_parts (s : RecorderState) (w : Bool)
    (h : s.started = true) :
    (stopRecorder s w).1.entries = s.entries ++ s.pending.map Prod.snd ∧
    (stopRecorder s w).1.pending = [] := by
  unfold stopRecorder
  rw [if_neg (by simp [h])]
  exact ⟨rfl, rfl⟩

theorem startRec_initRec (path : String) :
    startRec (initRec path) =
      { harPath := path, started := true, entries := [], pending := [],
        extraInfoCache := [], enabledSessions := [] } := by
  simp [startRec, initRec]

/-- Claim C2 as stated is false: a request event that omits the `url` key
(and carries an explicitly empty `method` string) produces, after
load-finished, an output entry whose `request.url` and `request.method`
are both empty — the code defaults a missing url to `""` and keeps a
present-but-empty method as is. -/
theorem c2_counterexample :
    ¬ (∀ en ∈ (run (startRec (initRec "c2.har"))
        [.req { requestId := some "r1",
                request := some { method := some "" } } 0,
         .fin { requestId := some "r1" }]).entries,
        en.request.method ≠ "" ∧ en.request.url ≠ "") := by
  decide

/-- Claim C2 amended: every output entry — finalized by load-finished,
load-failed, redirect supersession or the shutdown drain — has a non-empty
`request.method` provided no request event carries an explicitly empty
method string (a missing method defaults to `"GET"`); `request.url`,
however, defaults to the empty string when the event omits it, so it is
not guaranteed non-empty. -/
theorem c2_methods_nonempty (path : String) (evs : List Ev) (w : Bool)
    (hok : ∀ e ∈ evs, methodFieldOk e = true) :
    (∀ en ∈ (run (startRec (initRec path)) evs).entries,
      en.request.method ≠ "") ∧
    (∀ en ∈ (stopRecorder (run (startRec (initRec path)) evs) w).1.entries,
      en.request.method ≠ "") := by
  have hinv : MethodInv (run (startRec (initRec path)) evs) := by
    apply methodInv_run _ _ _ hok
    constructor
    · intro en hen
      rw [startRec_initRec] at hen
      simp at hen
    · intro p hp
      rw [startRec_initRec] at hp
      simp at hp
  obtain ⟨hent, hpend⟩ := hinv
  refine ⟨hent, ?_⟩
  intro en hen
  have hst : (run (startRec (initRec path)) evs).started = true := by
    rw [run_started, startRec_initRec]
  obtain ⟨he, _⟩ :=
    stopRecorder_started_parts (run (startRec (initRec path)) evs) w hst
  rw [he] at hen
  rcases List.mem_append.mp hen with hen | hen
  · exact hent en hen
  · rcases List.mem_map.mp hen with ⟨q, hq, rfl⟩
    exact hpend q hq

/-- The two-event sequence of the C2 witness: a well-formed GET request
finished normally. -/
def c2Evs : List Ev :=
  [.req { requestId := some "r1",
          request := some { method := some "GET",
                            url := some "https://a/" } } 0,
   .fin { requestId := some "r1" }]

/-- Witness for C2 (amended): after the well-formed run, no output entry
has an empty method. -/
theorem c2_methods_nonempty_witness :
    ¬ ("" ∈ (run (startRec (initRec "c2w.har")) c2Evs).entries.map
        (fun en => en.request.method)) := by
  intro hmem
  rcases List.mem_map.mp hmem with ⟨en, hen, hm⟩
  exact (c2_methods_nonempty "c2w.har" c2Evs false (by decide)).1 en hen hm

/-- Claim C9's defaulting clause is false as stated: a request event with
no `method` key is defaulted to `"GET"`, which is neither an empty string
nor a zero value. -/
theorem c9_counterexample :
    (dfind (onRequestWillBeSent (startRec (initRec "c9.har"))
        { requestId := some "r1",
          request := some { url := some "https://x/" } } 0).pending
      "r1").map (fun en => en.request.method) = some "GET" ∧
    "GET" ≠ "" := by
  exact ⟨by decide, by decide⟩

/-- Claim C9 amended: every handler is a total function over arbitrary
(possibly empty or malformed) payloads — modelling that the per-handler
try/except never lets an exception escape — and missing optional fields
are defaulted to fixed values: empty string for url, statusText and
mimeType, zero for status, sizes and the started-time fallback, except
that a missing method defaults to `"GET"` (and a POST body's missing
content type to `"application/x-www-form-urlencoded"`). -/
theorem c9_defaults (s : RecorderState) (rid : String) (now : Int)
    (entry : Entry) (hrid : rid ≠ "")
    (hc : dfind s.extraInfoCache rid = none) :
    dfind (onRequestWillBeSent s { requestId := some rid } now).pending rid =
      some (buildEntry rid {} none now) ∧
    (buildEntry rid {} none now).request.method = "GET" ∧
    (buildEntry rid {} none now).request.url = "" ∧
    (buildEntry rid {} none now).request.headers = [] ∧
    (buildEntry rid {} none now).request.postData = none ∧
    (buildEntry rid {} none now).response.status = 0 ∧
    (buildEntry rid {} none now).response.statusText = "" ∧
    (buildEntry rid {} none now).response.content.size = 0 ∧
    (buildEntry rid {} none now).response.content.mimeType = "" ∧
    (buildEntry rid {} none now).startedWallTime = now ∧
    (respUpdateEntry entry {}).response.status = 0 ∧
    (respUpdateEntry entry {}).response.statusText = "" ∧
    (respUpdateEntry entry {}).response.headers = [] ∧
    (respUpdateEntry entry {}).timings.wait = entry.timings.wait := by
  refine ⟨?_, rfl, rfl, rfl, rfl, rfl, rfl, rfl, rfl, rfl, rfl, rfl, rfl, rfl⟩
  unfold onRequestWillBeSent
  dsimp only
  rw [if_neg hrid, hc]
  dsimp only
  exact dfind_dinsert_self _ _ _

/-- Witness for C9 (amended) on a fresh recorder with id `"r1"`. -/
theorem c9_defaults_witness :
    dfind (onRequestWillBeSent (startRec (initRec "c9w.har"))
        { requestId := some "r1" } 7).pending "r1" =
      some (buildEntry "r1" {} none 7) ∧
    (buildEntry "r1" {} none 7).request.method = "GET" ∧
    (respUpdateEntry (buildEntry "r1" {} none 7) {}).response.status = 0 := by
  have h := c9_defaults (startRec (initRec "c9w.har")) "r1" 7
    (buildEntry "r1" {} none 7) (by decide) (by decide)
  exact ⟨h.1, h.2.1, h.2.2.2.2.2.2.2.2.2.2.1⟩

/-- Claim C10: an entry finalized by load-finished carries the body
placeholder `content.text = some ""`, whereas an entry finalized by
load-failed, and every entry moved out by the shutdown drain, still has no
`"text"` key in `response.content` (modelled as `none`) — the three
terminal paths do not produce uniformly-shaped output entries. -/
theorem c10_content_text_by_terminal (path : String) (evs : List Ev)
    (rid : String) (entry : Entry) (finEv : LoadingFinishedEvent)
    (failEv : LoadingFailedEvent) (w : Bool)
    (hrid : rid ≠ "")
    (hfin : finEv.requestId = some rid)
    (hfail : failEv.requestId = some rid)
    (hen : dfind (run (startRec (initRec path)) evs).pending rid =
      some entry) :
    ((onLoadingFinished (run (startRec (initRec path)) evs) finEv).entries =
      (run (startRec (initRec path)) evs).entries ++
        [finishUpdateEntry entry (finEv.encodedDataLength.getD 0)] ∧
     (finishUpdateEntry entry
        (finEv.encodedDataLength.getD 0)).response.content.text = some "") ∧
    ((onLoadingFailed (run (startRec (initRec path)) evs) failEv).entries =
      (run (startRec (initRec path)) evs).entries ++
        [failUpdateEntry entry (failEv.errorText.getD "Failed")] ∧
     (failUpdateEntry entry
        (failEv.errorText.getD "Failed")).response.content.text = none) ∧
    (∀ en2 ∈ ((stopRecorder (run (startRec (initRec path)) evs)
        w).1.entries.drop
          (run (startRec (initRec path)) evs).entries.length),
      en2.response.content.text = none) := by
  have htext : PendingTextNone (run (startRec (initRec path)) evs) := by
    apply pendingTextNone_run
    intro p hp
    rw [startRec_initRec] at hp
    simp at hp
  have hetext : entry.response.content.text = none :=
    htext (rid, entry) (dfind_mem hen)
  refine ⟨⟨?_, finishUpdateEntry_text _ _⟩, ⟨?_, ?_⟩, ?_⟩
  · obtain ⟨rid?, len?⟩ := finEv
    dsimp only at hfin
    subst hfin
    unfold onLoadingFinished
    dsimp only
    rw [if_neg hrid, hen]
  · obtain ⟨rid?, err?⟩ := failEv
    dsimp only at hfail
    subst hfail
    unfold onLoadingFailed
    dsimp only
    rw [if_neg hrid, hen]
  · rw [failUpdateEntry_text]
    exact hetext
  · intro en2 hen2
    have hst : (run (startRec (initRec path)) evs).started = true := by
      rw [run_started, startRec_initRec]
    obtain ⟨he, _⟩ :=
      stopRecorder_started_parts (run (startRec (initRec path)) evs) w hst
    rw [he, List.drop_left] at hen2
    rcases List.mem_map.mp hen2 with ⟨q, hq, rfl⟩
    exact htext q hq

/-- Witness for C10 with one pending request `"r3"`: load-finished stamps
the placeholder text, while the entry drained by `stop` keeps no text
field. -/
theorem c10_content_text_by_terminal_witness :
    (onLoadingFinished
        (run (startRec (initRec "c10.har"))
          [.req { requestId := some "r3",
                  request := some { method := some "GET",
                                    url := some "https://c/" } } 0])
        { requestId := some "r3", encodedDataLength := some 9 }).entries =
      (run (startRec (initRec "c10.har"))
        [.req { requestId := some "r3",
                request := some { method := some "GET",
                                  url := some "https://c/" } } 0]).entries ++
        [finishUpdateEntry
          (buildEntry "r3" { method := some "GET", url := some "https://c/" }
            none 0) 9] ∧
    (finishUpdateEntry
        (buildEntry "r3" { method := some "GET", url := some "https://c/" }
          none 0) 9).response.content.text = some "" ∧
    (buildEntry "r3" { method := some "GET", url := some "https://c/" }
        none 0).response.content.text = none := by
  have h := c10_content_text_by_terminal "c10.har"
    [.req { requestId := some "r3",
            request := some { method := some "GET",
                              url := some "https://c/" } } 0]
    "r3"
    (buildEntry "r3" { method := some "GET", url := some "https://c/" }
      none 0)
    { requestId := some "r3", encodedDataLength := some 9 }
    { requestId := some "r3" } true
    (by decide) rfl rfl (by decide)
  exact ⟨h.1.1, h.1.2, h.2.2
    (buildEntry "r3" { method := some "GET", url := some "https://c/" }
      none 0) (by decide)⟩

end CdpHar

namespace CdpHar

theorem respUpdateEntry_status (entry : Entry) (rd : ResponseData) :
    (respUpdateEntry entry rd).response.status = rd.status.getD 0 := rfl

theorem finishUpdateEntry_status (entry : Entry) (len : Int) :
    (finishUpdateEntry entry len).response.status =
      entry.response.status := rfl

theorem finishUpdateEntry_bodySize (entry : Entry) (len : Int) :
    (finishUpdateEntry entry len).response.bodySize = len := rfl

theorem finishUpdateEntry_contentSize (entry : Entry) (len : Int) :
    (finishUpdateEntry entry len).response.content.size = len := rfl

/-- Claim C4: for every event sequence request-initiated →
response-received (non-zero status) → load-finished (encoded length L) on
one identifier, the output holds exactly one entry for that request: the
built entry updated by the response and then by the finish stamp, its
status the response event's non-zero status and its `bodySize` and
`content.size` both L. -/
theorem c4_success_path (path rid : String) (rqd : RequestData)
    (wt : Option Int) (rr : Option (List (String × Int)))
    (rsd : ResponseData) (st L now : Int) (hrid : rid ≠ "")
    (hst : rsd.status = some st) (hstnz : st ≠ 0) :
    (run (startRec (initRec path))
      [.req { requestId := some rid, request := some rqd, wallTime := wt,
              redirectResponse := rr } now,
       .resp { requestId := some rid, response := some rsd },
       .fin { requestId := some rid, encodedDataLength := some L }]).entries =
      [finishUpdateEntry (respUpdateEntry (buildEntry rid rqd wt now) rsd)
        L] ∧
    (run (startRec (initRec path))
      [.req { requestId := some rid, request := some rqd, wallTime := wt,
              redirectResponse := rr } now,
       .resp { requestId := some rid, response := some rsd },
       .fin { requestId := some rid,
              encodedDataLength := some L }]).entries.length = 1 ∧
    (finishUpdateEntry (respUpdateEntry (buildEntry rid rqd wt now) rsd)
        L).response.status = st ∧
    st ≠ 0 ∧
    (finishUpdateEntry (respUpdateEntry (buildEntry rid rqd wt now) rsd)
        L).response.bodySize = L ∧
    (finishUpdateEntry (respUpdateEntry (buildEntry rid rqd wt now) rsd)
        L).response.content.size = L := by
  have hdf : ∀ v : Entry, dfind [(rid, v)] rid = some v := by
    intro v
    simp [dfind]
  have hdi : ∀ v w : Entry, dinsert [(rid, v)] rid w = [(rid, w)] := by
    intro v w
    simp [dinsert]
  have hde : ∀ v : Entry, derase [(rid, v)] rid = [] := by
    intro v
    simp [derase]
  have hs1 : onRequestWillBeSent (startRec (initRec path))
      { requestId := some rid, request := some rqd, wallTime := wt,
        redirectResponse := rr } now =
      { harPath := path, started := true, entries := [],
        pending := [(rid, buildEntry rid rqd wt now)], extraInfoCache := [],
        enabledSessions := [] } := by
    rw [startRec_initRec]
    unfold onRequestWillBeSent
    simp [hrid, dfind, dinsert, derase]
  have hs2 : onResponseReceived
      { harPath := path, started := true, entries := [],
        pending := [(rid, buildEntry rid rqd wt now)], extraInfoCache := [],
        enabledSessions := [] }
      { requestId := some rid, response := some rsd } =
      { harPath := path, started := true, entries := [],
        pending := [(rid,
          respUpdateEntry (buildEntry rid rqd wt now) rsd)],
        extraInfoCache := [], enabledSessions := [] } := by
    unfold onResponseReceived
    simp [hrid, hdf, hdi]
  have hs3 : onLoadingFinished
      { harPath := path, started := true, entries := [],
        pending := [(rid,
          respUpdateEntry (buildEntry rid rqd wt now) rsd)],
        extraInfoCache := [], enabledSessions := [] }
      { requestId := some rid, encodedDataLength := some L } =
      { harPath := path, started := true,
        entries := [finishUpdateEntry
          (respUpdateEntry (buildEntry rid rqd wt now) rsd) L],
        pending := [], extraInfoCache := [], enabledSessions := [] } := by
    unfold onLoadingFinished
    simp [hrid, hdf, hde]
  have hrun : run (startRec (initRec path))
      [.req { requestId := some rid, request := some rqd, wallTime := wt,
              redirectResponse := rr } now,
       .resp { requestId := some rid, response := some rsd },
       .fin { requestId := some rid, encodedDataLength := some L }] =
      { harPath := path, started := true,
        entries := [finishUpdateEntry
          (respUpdateEntry (buildEntry rid rqd wt now) rsd) L],
        pending := [], extraInfoCache := [], enabledSessions := [] } := by
    show onLoadingFinished (onResponseReceived
      (onRequestWillBeSent (startRec (initRec path))
        { requestId := some rid, request := some rqd, wallTime := wt,
          redirectResponse := rr } now)
      { requestId := some rid, response := some rsd })
      { requestId := some rid, encodedDataLength := some L } = _
    rw [hs1, hs2, hs3]
  refine ⟨?_, ?_, ?_, hstnz, finishUpdateEntry_bodySize _ _,
    finishUpdateEntry_contentSize _ _⟩
  · rw [hrun]
  · rw [hrun]
    rfl
  · rw [finishUpdateEntry_status, respUpdateEntry_status, hst]
    rfl

/-- Witness for C4 at the spec scenario: id `"r1"`, GET
`https://example.test/`, status 200, encoded length 1234 — one output
entry with status 200 and both sizes 1234. -/
theorem c4_success_path_witness :
    (run (startRec (initRec "c4.har"))
      [.req { requestId := some "r1",
              request := some { method := some "GET",
                                url := some "https://example.test/" } } 0,
       .resp { requestId := some "r1",
               response := some { status := some 200 } },
       .fin { requestId := some "r1",
              encodedDataLength := some 1234 }]).entries.length = 1 ∧
    (finishUpdateEntry (respUpdateEntry
        (buildEntry "r1" { method := some "GET",
                           url := some "https://example.test/" } none 0)
        { status := some 200 }) 1234).response.status = 200 ∧
    (finishUpdateEntry (respUpdateEntry
        (buildEntry "r1" { method := some "GET",
                           url := some "https://example.test/" } none 0)
        { status := some 200 }) 1234).response.bodySize = 1234 ∧
    (finishUpdateEntry (respUpdateEntry
        (buildEntry "r1" { method := some "GET",
                           url := some "https://example.test/" } none 0)
        { status := some 200 }) 1234).response.content.size = 1234 := by
  have h := c4_success_path "c4.har" "r1"
    { method := some "GET", url := some "https://example.test/" }
    none none { status := some 200 } 200 1234 0
    (by decide) rfl (by decide)
  exact ⟨h.2.1, h.2.2.1, h.2.2.2.2.1, h.2.2.2.2.2⟩

end CdpHar

namespace CdpHar

/-- Claim C3: extra-metadata header merging is order-independent and
first-seen-wins. For a request id not yet pending or cached, delivering
the request event then the extra-info event produces exactly the same
recorder state as the reverse order (early metadata is cached — the cache
record for the id being overwritten by the latest early arrival — and
consumed when the request arrives; late metadata is merged immediately);
a header name already present in the entry's header list (case-sensitive
exact match) is never overwritten, so merging the same header set twice
changes nothing and lookups of existing names are unchanged. -/
theorem c3_extra_info_merge_order_independent (s : RecorderState)
    (e : RequestWillBeSentEvent) (x : ExtraInfoEvent) (now : Int)
    (rid : String) (h1 : e.requestId = some rid)
    (h2 : x.requestId = some rid) (hrid : rid ≠ "")
    (hp : dfind s.pending rid = none)
    (hc : dfind s.extraInfoCache rid = none) :
    step (step s (.req e now)) (.extraInfo x) =
      step (step s (.extraInfo x)) (.req e now) ∧
    (∀ s2 : RecorderState, dfind s2.pending rid = none →
      dfind (onRequestWillBeSentExtraInfo s2 x).extraInfoCache rid =
        some (x.headers.getD [])) ∧
    (∀ (hs : List Header) (ex : List (String × String)),
      mergeHeaderList (mergeHeaderList hs ex) ex = mergeHeaderList hs ex) ∧
    (∀ (hs : List Header) (ex : List (String × String)) (n : String),
      n ∈ hs.map Header.name →
      headerFind (mergeHeaderList hs ex) n = headerFind hs n) := by
  obtain ⟨rid?e, req?, wt, rr⟩ := e
  obtain ⟨rid?x, hdrs?⟩ := x
  dsimp only at h1 h2
  subst h1
  subst h2
  have hder : derase (dinsert s.extraInfoCache rid (hdrs?.getD [])) rid =
      s.extraInfoCache := by
    rw [dinsert_of_dfind_none _ hc]
    exact derase_append_self _ hc
  refine ⟨?_, ?_, mergeHeaderList_idem, headerFind_mergeHeaderList_of_mem⟩
  · show onRequestWillBeSentExtraInfo
      (onRequestWillBeSent s
        { requestId := some rid, request := req?, wallTime := wt,
          redirectResponse := rr } now)
      { requestId := some rid, headers := hdrs? } =
      onRequestWillBeSent
        (onRequestWillBeSentExtraInfo s
          { requestId := some rid, headers := hdrs? })
        { requestId := some rid, request := req?, wallTime := wt,
          redirectResponse := rr } now
    have hA : onRequestWillBeSent s
        { requestId := some rid, request := req?, wallTime := wt,
          redirectResponse := rr } now =
        { s with pending :=
            (dinsert s.pending rid
              (buildEntry rid (req?.getD {}) wt now)) } := by
      unfold onRequestWillBeSent
      dsimp only
      rw [if_neg hrid, hc]
    have hB : onRequestWillBeSentExtraInfo s
        { requestId := some rid, headers := hdrs? } =
        { s with extraInfoCache :=
            dinsert s.extraInfoCache rid (hdrs?.getD []) } := by
      unfold onRequestWillBeSentExtraInfo
      dsimp only
      rw [if_neg hrid, hp]
    rw [hA, hB]
    unfold onRequestWillBeSentExtraInfo onRequestWillBeSent
    dsimp only
    rw [if_neg hrid, if_neg hrid]
    simp only [dfind_dinsert_self]
    by_cases hex : hdrs?.getD [] = []
    · rw [if_pos hex, if_pos hex, hder]
    · rw [if_neg hex, if_neg hex]
      rw [dinsert_dinsert_self, hder]
  · intro s2 hp2
    unfold onRequestWillBeSentExtraInfo
    dsimp only
    rw [if_neg hrid, hp2]
    dsimp only
    exact dfind_dinsert_self _ _ _

/-- Witness for C3: on a fresh recorder, request `"r1"` carrying header
`H = orig` and extra-info carrying `H = new, Accept = x` commute, the
early extra-info is cached under `"r1"`, re-merging is a no-op, and the
existing `H` keeps its original value. -/
theorem c3_extra_info_merge_order_independent_witness :
    step (step (startRec (initRec "c3.har"))
        (.req { requestId := some "r1",
                request := some { method := some "GET",
                                  url := some "https://a/",
                                  headers := some [("H", "orig")] } } 4))
      (.extraInfo { requestId := some "r1",
                    headers := some [("H", "new"), ("Accept", "x")] }) =
    step (step (startRec (initRec "c3.har"))
        (.extraInfo { requestId := some "r1",
                      headers := some [("H", "new"), ("Accept", "x")] }))
      (.req { requestId := some "r1",
              request := some { method := some "GET",
                                url := some "https://a/",
                                headers := some [("H", "orig")] } } 4) ∧
    dfind (onRequestWillBeSentExtraInfo (startRec (initRec "c3.har"))
        { requestId := some "r1",
          headers := some [("H", "new"), ("Accept", "x")] }).extraInfoCache
      "r1" = some [("H", "new"), ("Accept", "x")] ∧
    mergeHeaderList
        (mergeHeaderList [{ name := "H", value := "orig" }]
          [("H", "new"), ("Accept", "x")])
        [("H", "new"), ("Accept", "x")] =
      mergeHeaderList [{ name := "H", value := "orig" }]
        [("H", "new"), ("Accept", "x")] ∧
    headerFind
        (mergeHeaderList [{ name := "H", value := "orig" }]
          [("H", "new"), ("Accept", "x")]) "H" =
      headerFind [{ name := "H", value := "orig" }] "H" := by
  have h := c3_extra_info_merge_order_independent
    (startRec (initRec "c3.har"))
    { requestId := some "r1",
      request := some { method := some "GET", url := some "https://a/",
                        headers := some [("H", "orig")] } }
    { requestId := some "r1",
      headers := some [("H", "new"), ("Accept", "x")] }
    4 "r1" rfl rfl (by decide) (by decide) (by decide)
  exact ⟨h.1, h.2.1 (startRec (initRec "c3.har")) (by decide),
    h.2.2.1 [{ name := "H", value := "orig" }] [("H", "new"), ("Accept", "x")],
    h.2.2.2 [{ name := "H", value := "orig" }] [("H", "new"), ("Accept", "x")]
      "H" (by decide)⟩

end CdpHar

namespace CdpHar

/-- Claim C1 as stated is false: the handler contains no redirect logic.
On a two-hop chain sharing id `"r1"` (a request to `https://a/`, then a
request to `https://b/` carrying a redirect response payload, then a
terminal load-finished), the output holds exactly one entry — the last
hop's, with an empty `redirectURL` — not two entries with the first hop's
`redirectURL` pointing at `https://b/`. -/
theorem c1_counterexample :
    (run (startRec (initRec "c1.har"))
      [.req { requestId := some "r1",
              request := some { method := some "GET",
                                url := some "https://a/" } } 0,
       .req { requestId := some "r1",
              request := some { method := some "GET",
                                url := some "https://b/" },
              redirectResponse := some [("status", 301)] } 1,
       .fin { requestId := some "r1",
              encodedDataLength := some 7 }]).entries.map
      (fun en => (en.request.url, en.response.redirectURL)) =
      [("https://b/", "")] ∧
    (run (startRec (initRec "c1.har"))
      [.req { requestId := some "r1",
              request := some { method := some "GET",
                                url := some "https://a/" } } 0,
       .req { requestId := some "r1",
              request := some { method := some "GET",
                                url := some "https://b/" },
              redirectResponse := some [("status", 301)] } 1,
       .fin { requestId := some "r1",
              encodedDataLength := some 7 }]).entries.length ≠ 2 := by
  exact ⟨by decide, by decide⟩

/-- Claim C1 amended: when a request-initiated event arrives for an
identifier that already has a pending entry, the prior entry is not
finalized — the output collection is left unchanged and the pending entry
is silently replaced by a freshly built one whose response is zeroed and
whose `redirectURL` is empty (the event's redirect response payload is
never read), so a redirect chain of N hops sharing one identifier yields
one output entry for the final hop only. -/
theorem c1_redirect_precursor_overwritten (s : RecorderState)
    (e : RequestWillBeSentEvent) (now : Int) (rid : String) (old : Entry)
    (h1 : e.requestId = some rid) (hrid : rid ≠ "")
    (_hold : dfind s.pending rid = some old)
    (hc : dfind s.extraInfoCache rid = none) :
    (onRequestWillBeSent s e now).entries = s.entries ∧
    dfind (onRequestWillBeSent s e now).pending rid =
      some (buildEntry rid (e.request.getD {}) e.wallTime now) ∧
    (buildEntry rid
      (e.request.getD {}) e.wallTime now).response.redirectURL = "" ∧
    (buildEntry rid (e.request.getD {}) e.wallTime now).response.status =
      0 := by
  refine ⟨onRequestWillBeSent_entries s e now, ?_, rfl, rfl⟩
  obtain ⟨rid?, req?, wt, rr⟩ := e
  dsimp only at h1 ⊢
  subst h1
  unfold onRequestWillBeSent
  dsimp only
  rw [if_neg hrid, hc]
  dsimp only
  exact dfind_dinsert_self _ _ _

/-- Witness for C1 (amended): with hop one of `"r1"` pending, the second
request event for `"r1"` finalizes nothing and replaces the pending entry
with a fresh one whose `redirectURL` is empty. -/
theorem c1_redirect_precursor_overwritten_witness :
    (onRequestWillBeSent
        (run (startRec (initRec "c1w.har"))
          [.req { requestId := some "r1",
                  request := some { method := some "GET",
                                    url := some "https://a/" } } 0])
        { requestId := some "r1",
          request := some { method := some "GET",
                            url := some "https://b/" },
          redirectResponse := some [("status", 301)] } 1).entries =
      (run (startRec (initRec "c1w.har"))
        [.req { requestId := some "r1",
                request := some { method := some "GET",
                                  url := some "https://a/" } } 0]).entries ∧
    dfind (onRequestWillBeSent
        (run (startRec (initRec "c1w.har"))
          [.req { requestId := some "r1",
                  request := some { method := some "GET",
                                    url := some "https://a/" } } 0])
        { requestId := some "r1",
          request := some { method := some "GET",
                            url := some "https://b/" },
          redirectResponse := some [("status", 301)] } 1).pending "r1" =
      some (buildEntry "r1"
        { method := some "GET", url := some "https://b/" } none 1) ∧
    (buildEntry "r1" { method := some "GET", url := some "https://b/" }
      none 1).response.redirectURL = "" := by
  have h := c1_redirect_precursor_overwritten
    (run (startRec (initRec "c1w.har"))
      [.req { requestId := some "r1",
              request := some { method := some "GET",
                                url := some "https://a/" } } 0])
    { requestId := some "r1",
      request := some { method := some "GET", url := some "https://b/" },
      redirectResponse := some [("status", 301)] }
    1 "r1"
    (buildEntry "r1" { method := some "GET", url := some "https://a/" }
      none 0)
    rfl (by decide) (by decide) (by decide)
  exact ⟨h.1, h.2.1, h.2.2.1⟩

end CdpHar
